import Mathlib

/-!
Verification of the data-preparation and aggregation pipeline of the
Uber NCR operational analytics dashboard (`uber_dashboard.py`).

The pandas dataframe is embedded as a list of `Record`s; each aggregate
view of the dashboard is embedded as a Lean function over that list,
following the source line by line.  Pandas conventions that matter here:

* a null cell (`NaN` / `NaT`) is `Option.none`;
* `Series.isin` is membership, and a null cell is never a member of a
  list of concrete values;
* comparisons against `NaT` are `False`, so a null date fails every
  inclusive range test;
* `groupby` drops rows whose key is null and lists the remaining
  distinct keys in ascending order;
* `Series.count` counts the non-null entries; `size` counts all rows;
* `Series.sum` adds the non-null entries and returns 0 on an all-null
  series.
-/

namespace UberDash

/-- Parsed timestamp, standing for a non-null `DateTime` cell.  `hour` is
`dt.hour` (0 to 23), `dow` is `dt.dayofweek` (0 = Monday, 6 = Sunday),
`month` is `dt.month`. -/
structure DT where
  hour : Fin 24
  dow : Fin 7
  month : Nat
deriving DecidableEq

/-- One row of the loaded dataframe, after datetime conversion and the
numeric cleanup of `load_data`; every parsed cell is nullable. -/
structure Record where
  bookingId : Option String
  date : Option Int
  dateTime : Option DT
  vehicleType : Option String
  bookingStatus : Option String
  bookingValue : Option ℚ
  rideDistance : Option ℚ
  driverRating : Option ℚ
  customerRating : Option ℚ
  avgVTAT : Option ℚ
  avgCTAT : Option ℚ
  reasonCustomer : Option String
  reasonDriver : Option String
deriving DecidableEq

/-- Test whether `needle` occurs at the head of `hay`. -/
def firstMatches : List Char → List Char → Bool
  | [], _ => true
  | _ :: _, [] => false
  | a :: as, b :: bs => a == b && firstMatches as bs

/-- Substring test over character lists. -/
def hasSubstr (hay needle : List Char) : Bool :=
  (List.range (hay.length + 1)).any fun i => firstMatches needle (hay.drop i)

/-- The cancellation test used throughout the dashboard:
`Booking Status.str.contains('Cancel', case=False, na=False)`.
A null status gives `false` (`na=False`). -/
def is_cancel (r : Record) : Bool :=
  match r.bookingStatus with
  | none => false
  | some s => hasSubstr (s.data.map Char.toLower) "cancel".data

/-- Hour of day, `df['Hour'] = df['DateTime'].dt.hour`: null when the
combined datetime failed to parse. -/
def hourOf (r : Record) : Option Nat :=
  r.dateTime.map fun t => (t.hour : Nat)

/-- The fixed weekday sequence used by the heatmap (`day_order`). -/
def day_order : List String :=
  ["Monday", "Tuesday", "Wednesday", "Thursday", "Friday", "Saturday", "Sunday"]

/-- Day name, `df['DayOfWeek'] = df['DateTime'].dt.day_name()`. -/
def dayOf (r : Record) : Option String :=
  r.dateTime.map fun t => day_order.getD (t.dow : Nat) ""

/-- Weekend flag, `df['is_weekend'] = df['DateTime'].dt.dayofweek >= 5`.
For a null datetime, `dt.dayofweek` is null and the pandas comparison
`NaN >= 5` is `False`, so the flag degrades to `false`, never to null. -/
def is_weekend (r : Record) : Bool :=
  match r.dateTime with
  | none => false
  | some t => 5 ≤ (t.dow : Nat)

/- ### Loader (`load_data`) -/

/-- One raw CSV row as read by `pd.read_csv`: every cell is a nullable
string (an empty cell reads as null). -/
structure RawRow where
  bookingId : Option String
  date : Option String
  time : Option String
  vehicleType : Option String
  bookingStatus : Option String
  bookingValue : Option String
  rideDistance : Option String
  driverRating : Option String
  customerRating : Option String
  avgVTAT : Option String
  avgCTAT : Option String
  reasonCustomer : Option String
  reasonDriver : Option String

/-- Outcome of attempting to read the source file, the three ways the
`try` body of `load_data` can go: the path does not resolve to a
readable file (`FileNotFoundError`), `pd.read_csv` raises some other
parse-level exception with a message, or a well-formed table of rows is
obtained. -/
inductive Source where
  | missing
  | malformed (cause : String)
  | wellFormed (rows : List RawRow)

/-- Result of `load_data` as seen by the caller: the loaded records, or
one of the two failure states of the `except` clauses (the code surfaces
them via `st.error` and returns `None`; the two branches are
distinguished by their message, modeled as distinct constructors). -/
inductive LoadResult where
  | ok (records : List Record)
  | sourceNotFound
  | loadError (cause : String)
deriving DecidableEq

/-- The per-cell coercion functions used by `load_data`.  The source
delegates them to pandas (`pd.to_datetime(errors='coerce')`,
`pd.to_numeric(errors='coerce')`); all that matters to the pipeline is
that each is a TOTAL function into an `Option`: a cell that fails to
parse becomes null, no exception escapes.  `parseDT` receives the
already-parsed date because the source builds the combined datetime from
`df['Date'].astype(str) + ' ' + df['Time'].astype(str)` after the date
column has been coerced. -/
structure CellParsers where
  parseDate : Option String → Option Int
  parseDT : Option Int → Option String → Option DT
  parseNumeric : Option String → Option ℚ

/-- Conversion of one raw row into a record: datetime conversion,
feature derivation inputs, and per-column numeric coercion.  Total:
every cell failure degrades to null and the row is kept. -/
def parseRow (P : CellParsers) (row : RawRow) : Record :=
  let d := P.parseDate row.date
  { bookingId := row.bookingId
    date := d
    dateTime := P.parseDT d row.time
    vehicleType := row.vehicleType
    bookingStatus := row.bookingStatus
    bookingValue := P.parseNumeric row.bookingValue
    rideDistance := P.parseNumeric row.rideDistance
    driverRating := P.parseNumeric row.driverRating
    customerRating := P.parseNumeric row.customerRating
    avgVTAT := P.parseNumeric row.avgVTAT
    avgCTAT := P.parseNumeric row.avgCTAT
    reasonCustomer := row.reasonCustomer
    reasonDriver := row.reasonDriver }

/-- The loader `load_data`: `FileNotFoundError` becomes the
source-not-found failure, any other exception becomes the load error
carrying its message, and a well-formed table is cleaned row by row. -/
def load_data (P : CellParsers) : Source → LoadResult
  | .missing => .sourceNotFound
  | .malformed c => .loadError c
  | .wellFormed rows => .ok (rows.map (parseRow P))

/- ### Filter engine -/

/-- The sidebar filter configuration: a date range and the two
allow-lists fed to `isin`. -/
structure FilterConfig where
  dateLo : Int
  dateHi : Int
  allowedVehicles : List String
  allowedStatuses : List String

/-- The boolean mask of the source: date within range (a null date
compares false on both bounds), vehicle type in the allow-list, status
in the allow-list (a null cell is never `isin` a list of strings). -/
def mask (cfg : FilterConfig) (r : Record) : Bool :=
  (match r.date with
   | none => false
   | some d => cfg.dateLo ≤ d && d ≤ cfg.dateHi)
  && (match r.vehicleType with
      | none => false
      | some v => cfg.allowedVehicles.contains v)
  && (match r.bookingStatus with
      | none => false
      | some s => cfg.allowedStatuses.contains s)

/-- `filtered_df = df[mask]`: the rows passing the mask, in order. -/
def filtered_df (cfg : FilterConfig) (df : List Record) : List Record :=
  df.filter (mask cfg)

/- ### Groupby machinery

A pandas `groupby(k)` drops the rows with a null key and produces one
group per distinct key, keys listed in ascending order.  `insortLe`
inserts a key into a duplicate-free ascending list, and `groupKeys`
builds the key list of a `groupby`. -/

/-- Insert a key into a duplicate-free list kept ordered by `le`; an
already-present key is not duplicated. -/
def insortLe {κ : Type} [DecidableEq κ] (le : κ → κ → Bool) (a : κ) : List κ → List κ
  | [] => [a]
  | b :: t =>
    if a = b then b :: t
    else if le a b then a :: b :: t
    else b :: insortLe le a t

/-- The distinct keys of a column, in the order produced by `groupby`. -/
def groupKeys {κ : Type} [DecidableEq κ] (le : κ → κ → Bool) (l : List κ) : List κ :=
  l.foldr (insortLe le) []

/-- Boolean order on dates. -/
def intLe (a b : Int) : Bool := a ≤ b

/-- Boolean order on hours. -/
def natLe (a b : Nat) : Bool := a ≤ b

/-- Boolean order on categorical labels (lexicographic, as pandas sorts
string group keys). -/
def strLe (a b : String) : Bool := decide (a ≤ b)

theorem mem_insortLe {κ : Type} [DecidableEq κ] (le : κ → κ → Bool) (a x : κ)
    (l : List κ) : x ∈ insortLe le a l ↔ x = a ∨ x ∈ l := by
  induction l with
  | nil => simp [insortLe]
  | cons b t ih =>
    by_cases hab : a = b
    · subst hab
      simp only [insortLe, if_pos rfl]
      constructor
      · intro h; exact Or.inr h
      · rintro (h | h)
        · exact h ▸ List.mem_cons_self _ _
        · exact h
    · simp only [insortLe, if_neg hab]
      by_cases hle : le a b
      · simp [hle, List.mem_cons, or_assoc]
      · simp only [hle, if_neg, List.mem_cons, ih, Bool.false_eq_true, not_false_iff]
        tauto

/-- Properties making a boolean comparison a linear order. -/
structure LawfulLe {κ : Type} (le : κ → κ → Bool) : Prop where
  total : ∀ a b, le a b = false → le b a = true
  antisymm : ∀ a b, le a b = true → le b a = true → a = b
  trans : ∀ a b c, le a b = true → le b c = true → le a c = true
  refl : ∀ a, le a a = true

theorem sorted_nodup_insortLe {κ : Type} [DecidableEq κ] {le : κ → κ → Bool}
    (L : LawfulLe le) (a : κ) (l : List κ)
    (hs : l.Pairwise (fun x y => le x y = true)) (hn : l.Nodup) :
    (insortLe le a l).Pairwise (fun x y => le x y = true) ∧ (insortLe le a l).Nodup := by
  induction l with
  | nil => simp [insortLe]
  | cons b t ih =>
    rcases List.pairwise_cons.mp hs with ⟨hbt, hts⟩
    rcases List.nodup_cons.mp hn with ⟨hbn, htn⟩
    by_cases hab : a = b
    · subst hab
      simp only [insortLe, if_pos rfl]
      exact ⟨hs, hn⟩
    · simp only [insortLe, if_neg hab]
      by_cases hle : le a b = true
      · simp only [hle, if_pos]
        constructor
        · refine List.pairwise_cons.mpr ⟨?_, hs⟩
          intro x hx
          rcases List.mem_cons.mp hx with hxb | hxt
          · exact hxb ▸ hle
          · exact L.trans a b x hle (hbt x hxt)
        · refine List.nodup_cons.mpr ⟨?_, hn⟩
          intro hmem
          rcases List.mem_cons.mp hmem with hab2 | hat
          · exact hab hab2
          · exact hab (L.antisymm a b hle (hbt a hat))
      · have hba : le b a = true := L.total a b (Bool.not_eq_true _ ▸ hle)
        simp only [hle, if_neg, Bool.false_eq_true, not_false_iff]
        rcases ih hts htn with ⟨ihs, ihn⟩
        constructor
        · refine List.pairwise_cons.mpr ⟨?_, ihs⟩
          intro x hx
          rcases (mem_insortLe le a x t).mp hx with hxa | hxt
          · exact hxa ▸ hba
          · exact hbt x hxt
        · refine List.nodup_cons.mpr ⟨?_, ihn⟩
          intro hmem
          rcases (mem_insortLe le a b t).mp hmem with hba2 | hbt2
          · exact hab hba2.symm
          · exact hbn hbt2

theorem mem_groupKeys {κ : Type} [DecidableEq κ] (le : κ → κ → Bool) (x : κ)
    (l : List κ) : x ∈ groupKeys le l ↔ x ∈ l := by
  induction l with
  | nil => simp [groupKeys]
  | cons b t ih =>
    simp only [groupKeys, List.foldr_cons] at *
    rw [mem_insortLe, ih, List.mem_cons]

theorem sorted_nodup_groupKeys {κ : Type} [DecidableEq κ] {le : κ → κ → Bool}
    (L : LawfulLe le) (l : List κ) :
    (groupKeys le l).Pairwise (fun x y => le x y = true) ∧ (groupKeys le l).Nodup := by
  induction l with
  | nil => simp [groupKeys]
  | cons b t ih =>
    simpa only [groupKeys, List.foldr_cons] using
      sorted_nodup_insortLe L b (groupKeys le t) ih.1 ih.2

theorem lawful_intLe : LawfulLe intLe where
  total a b h := by simp only [intLe, decide_eq_false_iff_not] at h; simp [intLe]; omega
  antisymm a b h1 h2 := by
    simp only [intLe, decide_eq_true_eq] at h1 h2; omega
  trans a b c h1 h2 := by
    simp only [intLe, decide_eq_true_eq] at h1 h2; simp [intLe]; omega
  refl a := by simp [intLe]

theorem lawful_decideLe {κ : Type} [LinearOrder κ] :
    LawfulLe (fun a b : κ => decide (a ≤ b)) where
  total a b h := by
    rw [decide_eq_false_iff_not] at h
    exact decide_eq_true (le_of_not_le h)
  antisymm a b h1 h2 := le_antisymm (of_decide_eq_true h1) (of_decide_eq_true h2)
  trans a b c h1 h2 :=
    decide_eq_true (le_trans (of_decide_eq_true h1) (of_decide_eq_true h2))
  refl a := decide_eq_true (le_refl a)

theorem lawful_natLe : LawfulLe natLe where
  total a b h := by simp only [natLe, decide_eq_false_iff_not] at h; simp [natLe]; omega
  antisymm a b h1 h2 := by
    simp only [natLe, decide_eq_true_eq] at h1 h2; omega
  trans a b c h1 h2 := by
    simp only [natLe, decide_eq_true_eq] at h1 h2; simp [natLe]; omega
  refl a := by simp [natLe]

theorem lawful_strLe : LawfulLe strLe := lawful_decideLe

/- ### Top-line scalars (KPI section) -/

/-- `total_rev = filtered_df['Booking Value'].sum()`: the sum of the
non-null booking values (0 on an empty or all-null column). -/
def total_rev (rs : List Record) : ℚ :=
  (rs.filterMap (·.bookingValue)).sum

/-- `total_rides = len(filtered_df)`. -/
def total_rides (rs : List Record) : Nat := rs.length

/-- Rows with `Booking Status == 'Completed'` (the `completed_rides`
selection feeding the completion rate). -/
def completed_rides (rs : List Record) : List Record :=
  rs.filter fun r => r.bookingStatus = some "Completed"

/- ### Daily revenue series (`daily_data`) -/

/-- The group of records carrying a given date. -/
def dateGroup (rs : List Record) (d : Int) : List Record :=
  rs.filter fun r => r.date = some d

/-- The distinct non-null dates of the set, ascending: the index of
`filtered_df.groupby('Date')`. -/
def date_keys (rs : List Record) : List Int :=
  groupKeys intLe (rs.filterMap (·.date))

/-- `daily_data`: per date, the revenue (`'Booking Value': 'sum'`) and
the booking count (`'Booking ID': 'count'`, counting non-null ids). -/
def daily_data (rs : List Record) : List (Int × ℚ × Nat) :=
  (date_keys rs).map fun d =>
    let g := dateGroup rs d
    (d, (g.filterMap (·.bookingValue)).sum, (g.filterMap (·.bookingId)).length)

/-- Mean of a list of rationals (sum over length). -/
def listMean (l : List ℚ) : ℚ := l.sum / (l.length : ℚ)

/-- Trailing rolling mean with window `w` and `min_periods=1`: position
`i` averages the elements from `max 0 (i + 1 - w)` through `i`. -/
def rollingMean (w : Nat) (xs : List ℚ) : List ℚ :=
  (List.range xs.length).map fun i => listMean ((xs.take (i + 1)).drop (i + 1 - w))

/-- `daily_data['Revenue_7d'] = Revenue.rolling(window=7, min_periods=1).mean()`. -/
def revenue_7d (rs : List Record) : List ℚ :=
  rollingMean 7 ((daily_data rs).map fun p => p.2.1)

/- ### Vehicle-type revenue mix (`veh_metrics`) -/

/-- The group of records carrying a given vehicle type. -/
def vehicleGroup (rs : List Record) (v : String) : List Record :=
  rs.filter fun r => r.vehicleType = some v

/-- The distinct non-null vehicle types: index of
`filtered_df.groupby('Vehicle Type')`. -/
def vehicle_keys (rs : List Record) : List String :=
  groupKeys strLe (rs.filterMap (·.vehicleType))

/-- `veh_metrics`: per vehicle type, `Revenue=('Booking Value','sum')`
and `Rides=('Booking ID','count')`.  The presentation re-sorts by
revenue; the rows are the same. -/
def veh_metrics (rs : List Record) : List (String × ℚ × Nat) :=
  (vehicle_keys rs).map fun v =>
    let g := vehicleGroup rs v
    (v, (g.filterMap (·.bookingValue)).sum, (g.filterMap (·.bookingId)).length)

/-- Sum of the per-group revenues of the vehicle mix. -/
def mix_total (rs : List Record) : ℚ :=
  ((veh_metrics rs).map fun p => p.2.1).sum

/- ### Demand heatmap -/

/-- `heatmap_data = filtered_df.groupby(['DayOfWeek','Hour'])`: the
(day name, hour) pairs of the rows whose datetime parsed; a row with a
null datetime has both keys null and is dropped by the groupby. -/
def heatmap_data (rs : List Record) : List (String × Nat) :=
  rs.filterMap fun r =>
    match r.dateTime with
    | none => none
    | some t => some (day_order.getD (t.dow : Nat) "", (t.hour : Nat))

/-- The column index of `heatmap_pivot`: the distinct hours present,
ascending (pivot does not insert absent hours). -/
def heatmap_cols (rs : List Record) : List Nat :=
  groupKeys natLe ((heatmap_data rs).map (·.2))

/-- One cell of the pivot: the size of the `(day, hour)` group, or null
(`NaN`) when no record matches — the pivot leaves absent combinations
null, it does not fill zeros. -/
def heatmap_cell (rs : List Record) (d : String) (h : Nat) : Option Nat :=
  let n := ((heatmap_data rs).filter fun p => p = (d, h)).length
  if n = 0 then none else some n

/-- `heatmap_pivot` after `reindex(day_order)`: exactly one row per name
of `day_order`, Monday through Sunday, each listing the cells over the
present hours. -/
def heatmap_pivot (rs : List Record) : List (String × List (Option Nat)) :=
  day_order.map fun d => (d, (heatmap_cols rs).map (heatmap_cell rs d))

/- ### Hourly demand profile -/

/-- The distinct non-null hours, ascending: index of
`filtered_df.groupby('Hour')`. -/
def hour_keys (rs : List Record) : List Nat :=
  groupKeys natLe (rs.filterMap hourOf)

/-- `hourly_profile = filtered_df.groupby('Hour').size()`: per present
hour, the number of rows with that hour. -/
def hourly_profile (rs : List Record) : List (Nat × Nat) :=
  (hour_keys rs).map fun h => (h, (rs.filter fun r => hourOf r = some h).length)

/- ### Weekday versus weekend split -/

/-- The `False` group of `filtered_df.groupby('is_weekend')`, labelled
Weekday by the view. -/
def weekday_records (rs : List Record) : List Record :=
  rs.filter fun r => is_weekend r = false

/-- The `True` group of `filtered_df.groupby('is_weekend')`, labelled
Weekend by the view. -/
def weekend_records (rs : List Record) : List Record :=
  rs.filter fun r => is_weekend r = true

/- ### Cancellation reasons -/

/-- `cancel_df`: the rows whose status contains `Cancel`
case-insensitively. -/
def cancel_df (rs : List Record) : List Record :=
  rs.filter is_cancel

/-- `all_reasons = pd.concat([cancel_df['Reason for cancelling by
Customer'].dropna(), cancel_df['Driver Cancellation Reason'].dropna()])`:
the non-null customer reasons followed by the non-null driver reasons.
A record with both fields non-null contributes twice, once to each
half. -/
def all_reasons (rs : List Record) : List String :=
  (cancel_df rs).filterMap (·.reasonCustomer)
    ++ (cancel_df rs).filterMap (·.reasonDriver)

/-- Modelled from the spec wording (not from the source), for
comparison with `all_reasons`: one reason per cancelled record, the
customer reason when non-null, else the driver reason. -/
def reasonsSpecCoalesced (rs : List Record) : List String :=
  (cancel_df rs).filterMap fun r =>
    match r.reasonCustomer with
    | some c => some c
    | none => r.reasonDriver

/- ### Cancellation rate by vehicle type (`cancel_by_vehicle`) -/

/-- `cancel_by_vehicle`: per vehicle type, `Total=('Booking ID',
'count')` (non-null ids), `Cancelled` (rows whose status contains
`Cancel`), and the rate `Cancelled / Total * 100`.  The division is a
pandas float division with no guard: when `Total` is 0 it yields a
non-finite float (`inf`, or `NaN` for 0/0), modeled here as `none`. -/
def cancel_by_vehicle (rs : List Record) : List (String × Nat × Nat × Option ℚ) :=
  (vehicle_keys rs).map fun v =>
    let g := vehicleGroup rs v
    let total := (g.filterMap (·.bookingId)).length
    let cancelled := (g.filter is_cancel).length
    (v, total, cancelled,
      if total = 0 then none else some ((cancelled : ℚ) / (total : ℚ) * 100))

/- ### Concrete sample data, used by counterexamples and witnesses -/

/-- A completed Monday 05:00 booking with a parsed datetime. -/
def rHeat : Record :=
  { bookingId := some "B1", date := some 10, dateTime := some ⟨5, 0, 1⟩,
    vehicleType := some "Go Mini", bookingStatus := some "Completed",
    bookingValue := some 100, rideDistance := none, driverRating := none,
    customerRating := none, avgVTAT := none, avgCTAT := none,
    reasonCustomer := none, reasonDriver := none }

/-- A cancelled booking carrying BOTH cancellation-reason fields. -/
def rBoth : Record :=
  { bookingId := some "B2", date := some 10, dateTime := none,
    vehicleType := some "Go Mini", bookingStatus := some "Cancelled by Customer",
    bookingValue := none, rideDistance := none, driverRating := none,
    customerRating := none, avgVTAT := none, avgCTAT := none,
    reasonCustomer := some "Driver delay", reasonDriver := some "Personal" }

/-- A cancelled booking whose booking id failed to load: its group has
`Total = 0` (count of non-null ids) but `Cancelled = 1`. -/
def rC5 : Record :=
  { bookingId := none, date := some 10, dateTime := none,
    vehicleType := some "Auto", bookingStatus := some "Cancelled by Driver",
    bookingValue := none, rideDistance := none, driverRating := none,
    customerRating := none, avgVTAT := none, avgCTAT := none,
    reasonCustomer := none, reasonDriver := some "Personal" }

/-- A row where every cell failed to parse. -/
def rNull : Record :=
  { bookingId := none, date := none, dateTime := none,
    vehicleType := none, bookingStatus := none,
    bookingValue := none, rideDistance := none, driverRating := none,
    customerRating := none, avgVTAT := none, avgCTAT := none,
    reasonCustomer := none, reasonDriver := none }

/-- A concrete instantiation of the per-cell parsers, for witnesses:
integer-day dates, hour-valued times, natural-number amounts; anything
else coerces to null. -/
def demoParsers : CellParsers where
  parseDate s := s.bind String.toInt?
  parseDT d t :=
    match d, t with
    | some _, some u =>
      (String.toNat? u).bind fun h =>
        if hh : h < 24 then some ⟨⟨h, hh⟩, 0, 1⟩ else none
    | _, _ => none
  parseNumeric s := s.bind fun u => (String.toNat? u).map fun n => (n : ℚ)

/-- A filter configuration covering `rHeat`. -/
def cfgDemo : FilterConfig :=
  { dateLo := 0, dateHi := 20,
    allowedVehicles := ["Go Mini"], allowedStatuses := ["Completed"] }

/- ### Helper lemmas -/

theorem sum_filterMap_getD {α : Type} (f : α → Option ℚ) (l : List α) :
    (l.filterMap f).sum = (l.map fun a => (f a).getD 0).sum := by
  induction l with
  | nil => rfl
  | cons a t ih =>
    cases hfa : f a <;>
      simp [List.filterMap_cons, hfa, ih]

theorem sum_map_add_distrib {κ : Type} (f g : κ → ℚ) (ks : List κ) :
    (ks.map fun k => f k + g k).sum = (ks.map f).sum + (ks.map g).sum := by
  induction ks with
  | nil => simp
  | cons b t ih => simp [ih]; ring

theorem sum_map_indicator {κ : Type} [DecidableEq κ] (ks : List κ) (k0 : κ) (x : ℚ)
    (hn : ks.Nodup) (hk : k0 ∈ ks) :
    (ks.map fun k => if k = k0 then x else 0).sum = x := by
  induction ks with
  | nil => cases hk
  | cons b t ih =>
    rcases List.nodup_cons.mp hn with ⟨hbt, htn⟩
    rcases List.mem_cons.mp hk with hb | ht
    · subst hb
      have hz : (t.map fun k => if k = k0 then x else 0).sum = 0 := by
        have hall : ∀ k ∈ t, (if k = k0 then x else (0:ℚ)) = 0 := by
          intro k hkt
          rw [if_neg]
          intro hkb
          exact hbt (hkb ▸ hkt)
        calc (t.map fun k => if k = k0 then x else 0).sum
            = (t.map fun _ => (0:ℚ)).sum := by
              rw [List.map_congr_left hall]
          _ = 0 := by simp
      simp [hz]
    · have hbk : b ≠ k0 := fun hb => hbt (hb ▸ ht)
      simp [if_neg hbk, ih htn ht]

theorem sum_partition {α κ : Type} [DecidableEq κ] (f : α → Option κ) (v : α → ℚ)
    (l : List α) (ks : List κ) (hn : ks.Nodup)
    (hcov : ∀ a ∈ l, ∀ k, f a = some k → k ∈ ks)
    (hkey : ∀ a ∈ l, (f a).isSome) :
    (ks.map fun k => ((l.filter fun a => f a = some k).map v).sum).sum
      = (l.map v).sum := by
  induction l with
  | nil => simp
  | cons a t ih =>
    obtain ⟨k0, hk0⟩ : ∃ k0, f a = some k0 := by
      have := hkey a (List.mem_cons_self a t)
      cases hfa : f a with
      | none => rw [hfa] at this; cases this
      | some k0 => exact ⟨k0, rfl⟩
    have hk0mem : k0 ∈ ks := hcov a (List.mem_cons_self a t) k0 hk0
    have hstep : ∀ k, ((a :: t).filter fun x => f x = some k).map v
        = (if k = k0 then [v a] else []) ++ ((t.filter fun x => f x = some k).map v) := by
      intro k
      by_cases hkk : k = k0
      · subst hkk
        rw [List.filter_cons_of_pos (by simp [hk0])]
        simp
      · rw [List.filter_cons_of_neg]
        · simp [hkk]
        · simp only [decide_eq_true_eq, hk0, Option.some.injEq]
          intro h2
          first
          | exact hkk h2
          | exact hkk h2.symm
    have hrw : (ks.map fun k => (((a :: t).filter fun x => f x = some k).map v).sum)
        = ks.map fun k => (if k = k0 then v a else 0)
            + ((t.filter fun x => f x = some k).map v).sum := by
      refine List.map_congr_left ?_
      intro k _
      rw [hstep k]
      by_cases hkk : k = k0 <;> simp [hkk]
    rw [hrw, sum_map_add_distrib,
      sum_map_indicator ks k0 (v a) hn hk0mem]
    have hiht := ih (fun x hx k hk => hcov x (List.mem_cons_of_mem a hx) k hk)
      (fun x hx => hkey x (List.mem_cons_of_mem a hx))
    rw [hiht]
    simp

theorem count_filterMap_eq_length_filter {α κ : Type} [DecidableEq κ]
    (f : α → Option κ) (s : κ) (l : List α) :
    (l.filterMap f).count s = (l.filter fun a => f a = some s).length := by
  induction l with
  | nil => rfl
  | cons a t ih =>
    cases hfa : f a with
    | none =>
      rw [List.filterMap_cons_none hfa, List.filter_cons_of_neg (by simp [hfa]), ih]
    | some b =>
      rw [List.filterMap_cons_some hfa]
      by_cases hbs : b = s
      · subst hbs
        rw [List.count_cons_self, List.filter_cons_of_pos (by simp [hfa]), ih]
        simp
      · rw [List.count_cons_of_ne (fun hsb => hbs hsb.symm),
          List.filter_cons_of_neg (by simp [hfa, hbs]), ih]

theorem length_filterMap_of_all_isSome {α κ : Type} (f : α → Option κ) (l : List α)
    (h : ∀ a ∈ l, (f a).isSome) : (l.filterMap f).length = l.length := by
  induction l with
  | nil => rfl
  | cons a t ih =>
    obtain ⟨b, hb⟩ : ∃ b, f a = some b := by
      have := h a (List.mem_cons_self a t)
      cases hfa : f a with
      | none => rw [hfa] at this; cases this
      | some b => exact ⟨b, rfl⟩
    rw [List.filterMap_cons_some hb]
    simp only [List.length_cons]
    rw [ih (fun x hx => h x (List.mem_cons_of_mem a hx))]

theorem mask_iff (cfg : FilterConfig) (r : Record) :
    mask cfg r = true
      ↔ (∃ d, r.date = some d ∧ cfg.dateLo ≤ d ∧ d ≤ cfg.dateHi)
        ∧ (∃ v, r.vehicleType = some v ∧ v ∈ cfg.allowedVehicles)
        ∧ (∃ s, r.bookingStatus = some s ∧ s ∈ cfg.allowedStatuses) := by
  unfold mask
  cases hd : r.date <;> cases hv : r.vehicleType <;> cases hs : r.bookingStatus <;>
    (simp [List.elem_iff]; try tauto)

theorem length_filter_filterMap_eq {α β : Type} [DecidableEq β]
    (F : α → Option β) (x : β) (l : List α) :
    ((l.filterMap F).filter fun b => b = x).length
      = (l.filter fun a => F a = some x).length := by
  induction l with
  | nil => rfl
  | cons a t ih =>
    cases hfa : F a with
    | none =>
      rw [List.filterMap_cons_none hfa, List.filter_cons_of_neg (by simp [hfa]), ih]
    | some b =>
      rw [List.filterMap_cons_some hfa]
      by_cases hbx : b = x
      · subst hbx
        rw [List.filter_cons_of_pos (by simp), List.filter_cons_of_pos (by simp [hfa]),
          List.length_cons, List.length_cons, ih]
      · rw [List.filter_cons_of_neg (by simp [hbx]),
          List.filter_cons_of_neg (by simp [hfa, hbx]), ih]

theorem heat_cell_count (rs : List Record) (d : String) (hh : Nat) :
    ((heatmap_data rs).filter fun p => p = (d, hh)).length
      = (rs.filter fun r => dayOf r = some d ∧ hourOf r = some hh).length := by
  rw [heatmap_data, length_filter_filterMap_eq]
  have hpt : ∀ r ∈ rs,
      (decide ((match r.dateTime with
        | none => none
        | some t => some (day_order.getD (t.dow : Nat) "", (t.hour : Nat)))
          = some (d, hh)))
        = decide (dayOf r = some d ∧ hourOf r = some hh) := by
    intro r _
    apply decide_eq_decide.mpr
    cases ht : r.dateTime <;> simp [dayOf, hourOf, ht]
  rw [List.filter_congr hpt]

theorem all_reasons_count (rs : List Record) (s : String) :
    (all_reasons rs).count s
      = ((cancel_df rs).filter fun r => r.reasonCustomer = some s).length
        + ((cancel_df rs).filter fun r => r.reasonDriver = some s).length := by
  rw [all_reasons, List.count_append,
    count_filterMap_eq_length_filter (fun r : Record => r.reasonCustomer) s,
    count_filterMap_eq_length_filter (fun r : Record => r.reasonDriver) s]

/- ### Claim theorems -/

/-- C2: the filter engine returns exactly the records satisfying the
conjunction of the inclusive date range, vehicle-type membership and
status membership; a record with a null date is never returned, for any
bounds, and an empty allow-list yields the empty result, not allow-all. -/
theorem filter_conjunction_semantics (cfg : FilterConfig) (rs : List Record) :
    (∀ r, r ∈ filtered_df cfg rs ↔ r ∈ rs
        ∧ (∃ d, r.date = some d ∧ cfg.dateLo ≤ d ∧ d ≤ cfg.dateHi)
        ∧ (∃ v, r.vehicleType = some v ∧ v ∈ cfg.allowedVehicles)
        ∧ (∃ s, r.bookingStatus = some s ∧ s ∈ cfg.allowedStatuses))
    ∧ (∀ r ∈ filtered_df cfg rs, r.date ≠ none)
    ∧ filtered_df { cfg with allowedVehicles := [] } rs = []
    ∧ filtered_df { cfg with allowedStatuses := [] } rs = [] := by
  have hmem : ∀ r, r ∈ filtered_df cfg rs ↔ r ∈ rs
      ∧ (∃ d, r.date = some d ∧ cfg.dateLo ≤ d ∧ d ≤ cfg.dateHi)
      ∧ (∃ v, r.vehicleType = some v ∧ v ∈ cfg.allowedVehicles)
      ∧ (∃ s, r.bookingStatus = some s ∧ s ∈ cfg.allowedStatuses) := by
    intro r
    rw [filtered_df, List.mem_filter, mask_iff]
  refine ⟨hmem, ?_, ?_, ?_⟩
  · intro r hr hnone
    rcases ((hmem r).mp hr).2.1 with ⟨d, hd, _, _⟩
    rw [hnone] at hd
    cases hd
  · rw [filtered_df, List.filter_eq_nil_iff]
    intro r _
    simp only [mask]
    cases r.vehicleType <;> simp
  · rw [filtered_df, List.filter_eq_nil_iff]
    intro r _
    simp only [mask]
    cases r.bookingStatus <;> simp

/-- Witness for C2: a concrete record passing a concrete filter. -/
theorem filter_conjunction_semantics_witness :
    rHeat ∈ filtered_df cfgDemo [rHeat] :=
  ((filter_conjunction_semantics cfgDemo [rHeat]).1 rHeat).mpr
    ⟨List.mem_singleton.mpr rfl,
     ⟨10, rfl, by decide, by decide⟩,
     ⟨"Go Mini", rfl, by decide⟩,
     ⟨"Completed", rfl, by decide⟩⟩

/-- C9: filtering is idempotent — re-filtering its own output with the
same configuration returns the same list — and the output is a sublist
of the (unchanged, immutable) source. -/
theorem filter_idempotent_view (cfg : FilterConfig) (rs : List Record) :
    filtered_df cfg (filtered_df cfg rs) = filtered_df cfg rs
    ∧ (filtered_df cfg rs).Sublist rs := by
  constructor
  · rw [filtered_df, filtered_df, List.filter_filter]
    simp only [Bool.and_self]
  · exact List.filter_sublist rs

/-- C3: the loader fails with the source-not-found failure exactly when
the file is missing, fails with a load error carrying the cause exactly
when reading raises any other exception, and per-cell parse failures
never fail the load: every raw row of a well-formed table yields a
record, whatever the cell parsers reject. -/
theorem load_error_taxonomy (P : CellParsers) (src : Source) :
    (load_data P src = .sourceNotFound ↔ src = .missing)
    ∧ (∀ c, load_data P src = .loadError c ↔ src = .malformed c)
    ∧ (∀ rows, load_data P (.wellFormed rows) = .ok (rows.map (parseRow P))
        ∧ (rows.map (parseRow P)).length = rows.length) := by
  refine ⟨?_, ?_, ?_⟩
  · cases src <;> simp [load_data]
  · intro c
    cases src <;> simp [load_data]
  · intro rows
    exact ⟨rfl, by simp⟩

/-- Witness for C3 at concrete parsers and sources. -/
theorem load_error_taxonomy_witness :
    load_data demoParsers .missing = .sourceNotFound
    ∧ load_data demoParsers (.malformed "bad header") = .loadError "bad header" :=
  ⟨(load_error_taxonomy demoParsers .missing).1.mpr rfl,
   ((load_error_taxonomy demoParsers (.malformed "bad header")).2.1 "bad header").mpr rfl⟩

/-- C10: a record whose combined datetime failed to parse has
`is_weekend = false` — the code resolves the null through the pandas
comparison `NaN >= 5`, which is `False` — so the record lands in the
Weekday group of the weekend split, never in the Weekend group. -/
theorem is_weekend_null_defaults_false (r : Record) (h : r.dateTime = none) :
    is_weekend r = false
    ∧ (∀ rs : List Record, weekday_records (r :: rs) = r :: weekday_records rs
        ∧ weekend_records (r :: rs) = weekend_records rs) := by
  have hw : is_weekend r = false := by rw [is_weekend, h]
  refine ⟨hw, fun rs => ⟨?_, ?_⟩⟩
  · rw [weekday_records, weekday_records, List.filter_cons_of_pos (by simp [hw])]
  · rw [weekend_records, weekend_records, List.filter_cons_of_neg (by simp [hw])]

/-- Witness for C10 at a concrete all-null record. -/
theorem is_weekend_null_witness :
    is_weekend rNull = false ∧ weekday_records [rNull] = rNull :: weekday_records [] :=
  ⟨(is_weekend_null_defaults_false rNull rfl).1,
   ((is_weekend_null_defaults_false rNull rfl).2 []).1⟩

/-- C1 counterexample: the source concatenates the two dropped-null
reason columns, so a cancelled record carrying both reasons contributes
BOTH strings, while the claim (one coalesced reason per record, customer
wins) predicts only the customer reason. -/
theorem reasons_concat_cex :
    all_reasons [rBoth] = ["Driver delay", "Personal"]
    ∧ reasonsSpecCoalesced [rBoth] = ["Driver delay"]
    ∧ all_reasons [rBoth] ≠ reasonsSpecCoalesced [rBoth] := by decide

/-- C1 amended: each cancelled record contributes its customer reason
when that is non-null AND its driver reason when that is non-null — a
record with both contributes both, so the frequency of a reason string
is the sum of its customer-column and driver-column occurrences. -/
theorem reasons_contribution_count (rs : List Record) (s : String) :
    (all_reasons rs).count s
      = ((cancel_df rs).filter fun r => r.reasonCustomer = some s).length
        + ((cancel_df rs).filter fun r => r.reasonDriver = some s).length :=
  all_reasons_count rs s

/-- C5 counterexample: a vehicle-type group whose only record has a
null booking id has `Total = 0` (count of non-null ids) and
`Cancelled = 1`; the unguarded division produces a non-finite rate
(modeled `none`), not the rate 0 the claim states. -/
theorem cancel_rate_zero_total_cex :
    cancel_by_vehicle [rC5] = [("Auto", 0, 1, none)]
    ∧ ∀ p ∈ cancel_by_vehicle [rC5], p.2.2.2 ≠ some (0:ℚ) := by decide

/-- C5 amended: per group, `Cancelled` counts the cancel-status records
and `Total` the records with a non-null booking id; the rate is
`Cancelled / Total * 100` when `Total` is non-zero and non-finite
(`none`) when `Total = 0`; whenever every record of the group has a
non-null booking id, `Total` is positive and the rate is defined and
lies in `[0, 100]`. -/
theorem cancel_rate_amended (rs : List Record) (v : String)
    (total cancelled : Nat) (rate : Option ℚ)
    (hmem : (v, total, cancelled, rate) ∈ cancel_by_vehicle rs) :
    total = ((vehicleGroup rs v).filterMap (·.bookingId)).length
    ∧ cancelled = ((vehicleGroup rs v).filter is_cancel).length
    ∧ (total = 0 → rate = none)
    ∧ (total ≠ 0 → rate = some ((cancelled : ℚ) / (total : ℚ) * 100))
    ∧ ((∀ r ∈ vehicleGroup rs v, r.bookingId ≠ none) →
        0 < total ∧ cancelled ≤ total
        ∧ ∃ q, rate = some q ∧ 0 ≤ q ∧ q ≤ 100) := by
  rw [cancel_by_vehicle, List.mem_map] at hmem
  obtain ⟨v0, hv0, heq⟩ := hmem
  simp only [Prod.mk.injEq] at heq
  obtain ⟨hv, htot, hcan, hrate⟩ := heq
  subst hv htot hcan hrate
  refine ⟨rfl, rfl, fun h0 => if_pos h0, fun h0 => if_neg h0, fun hall => ?_⟩
  have hlen : ((vehicleGroup rs v0).filterMap (·.bookingId)).length
      = (vehicleGroup rs v0).length :=
    length_filterMap_of_all_isSome _ _
      (fun a ha => Option.isSome_iff_ne_none.mpr (hall a ha))
  have hne : vehicleGroup rs v0 ≠ [] := by
    rw [vehicle_keys, mem_groupKeys] at hv0
    obtain ⟨r, hr, hrv⟩ := List.mem_filterMap.mp hv0
    intro hnil
    have hrmem : r ∈ vehicleGroup rs v0 := by
      rw [vehicleGroup, List.mem_filter]
      exact ⟨hr, by simp [hrv]⟩
    rw [hnil] at hrmem
    cases hrmem
  have hpos : 0 < (vehicleGroup rs v0).length := List.length_pos.mpr hne
  have htotpos : 0 < ((vehicleGroup rs v0).filterMap (·.bookingId)).length :=
    hlen ▸ hpos
  have hcle : ((vehicleGroup rs v0).filter is_cancel).length
      ≤ ((vehicleGroup rs v0).filterMap (·.bookingId)).length := by
    rw [hlen]
    exact List.length_filter_le _ _
  refine ⟨htotpos, hcle, ?_⟩
  rw [if_neg (Nat.pos_iff_ne_zero.mp htotpos)]
  set C := ((vehicleGroup rs v0).filter is_cancel).length with hC
  set T := ((vehicleGroup rs v0).filterMap (·.bookingId)).length with hT
  have hTpos : (0:ℚ) < (T:ℚ) := by exact_mod_cast htotpos
  have hCT : (C:ℚ) ≤ (T:ℚ) := by exact_mod_cast hcle
  refine ⟨_, rfl, ?_, ?_⟩
  · apply mul_nonneg (div_nonneg (Nat.cast_nonneg _) (le_of_lt hTpos))
    norm_num
  · calc (C:ℚ) / (T:ℚ) * 100
        ≤ 1 * 100 := by
          apply mul_le_mul_of_nonneg_right ((div_le_one hTpos).mpr hCT)
          norm_num
      _ = 100 := one_mul 100

/-- Witness for C5 at the concrete degenerate group. -/
theorem cancel_rate_amended_witness :
    (0:Nat) = ((vehicleGroup [rC5] "Auto").filterMap (·.bookingId)).length
    ∧ (none : Option ℚ) = none :=
  ⟨(cancel_rate_amended [rC5] "Auto" 0 1 none (by decide)).1,
   (cancel_rate_amended [rC5] "Auto" 0 1 none (by decide)).2.2.1 rfl⟩

/-- C7 counterexample: with a single record at Monday 05:00 the pivot
has the single hour column 5, not the full ascending range 0..23 the
claim states — the pivot only creates columns for hours present. -/
theorem heatmap_cols_cex :
    heatmap_cols [rHeat] = [5] ∧ heatmap_cols [rHeat] ≠ List.range 24 := by decide

/-- C7 amended: the pivot reindexed by `day_order` has exactly the rows
Monday through Sunday in that order; its columns are the distinct hours
PRESENT among records with a parsed datetime, ascending and all below
24 (so they are exactly 0..23 only when every hour occurs); each cell
holds the count of records matching its (day, hour) pair, with null
(`NaN`, not zero) for a pair matching no record. -/
theorem heatmap_pivot_amended (rs : List Record) :
    (heatmap_pivot rs).map (fun p => p.1) = day_order
    ∧ (heatmap_cols rs).Pairwise (· ≤ ·)
    ∧ (heatmap_cols rs).Nodup
    ∧ (∀ h, h ∈ heatmap_cols rs
        ↔ ∃ r ∈ rs, ∃ t, r.dateTime = some t ∧ (t.hour : Nat) = h)
    ∧ (∀ h ∈ heatmap_cols rs, h < 24)
    ∧ (∀ d hh, (heatmap_cell rs d hh).getD 0
        = (rs.filter fun r => dayOf r = some d ∧ hourOf r = some hh).length)
    ∧ (∀ d hh, (heatmap_cell rs d hh = none
        ↔ (rs.filter fun r => dayOf r = some d ∧ hourOf r = some hh).length = 0)) := by
  have hmem : ∀ h : Nat, h ∈ heatmap_cols rs
      ↔ ∃ r ∈ rs, ∃ t, r.dateTime = some t ∧ (t.hour : Nat) = h := by
    intro h
    rw [heatmap_cols, mem_groupKeys, List.mem_map]
    constructor
    · rintro ⟨p, hp, hph⟩
      rw [heatmap_data] at hp
      obtain ⟨r, hr, hF⟩ := List.mem_filterMap.mp hp
      cases ht : r.dateTime with
      | none => rw [ht] at hF; cases hF
      | some t =>
        rw [ht] at hF
        refine ⟨r, hr, t, ht, ?_⟩
        rw [← Option.some.inj hF] at hph
        exact hph
    · rintro ⟨r, hr, t, ht, hth⟩
      refine ⟨(day_order.getD (t.dow : Nat) "", (t.hour : Nat)), ?_, hth⟩
      rw [heatmap_data]
      exact List.mem_filterMap.mpr ⟨r, hr, by rw [ht]⟩
  refine ⟨?_, ?_, ?_, hmem, ?_, ?_, ?_⟩
  · rfl
  · exact ((sorted_nodup_groupKeys lawful_natLe _).1).imp fun hxy => of_decide_eq_true hxy
  · exact (sorted_nodup_groupKeys lawful_natLe _).2
  · intro h hh
    obtain ⟨r, _, t, _, hth⟩ := (hmem h).mp hh
    rw [← hth]
    exact t.hour.isLt
  · intro d hh
    rw [heatmap_cell]
    by_cases hn : ((heatmap_data rs).filter fun p => p = (d, hh)).length = 0
    · simp only [hn, if_pos]
      rw [← heat_cell_count, hn]
      rfl
    · simp only [hn, if_neg, Option.getD_some]
      exact heat_cell_count rs d hh
  · intro d hh
    rw [heatmap_cell, ← heat_cell_count]
    by_cases hn : ((heatmap_data rs).filter fun p => p = (d, hh)).length = 0
    · simp [hn]
    · simp [hn]

/-- Witness for C7: the amended row and column facts at a concrete
record set. -/
theorem heatmap_pivot_amended_witness :
    (heatmap_pivot [rHeat]).map (fun p => p.1) = day_order ∧ 5 < 24 :=
  ⟨(heatmap_pivot_amended [rHeat]).1,
   (heatmap_pivot_amended [rHeat]).2.2.2.2.1 5 (by decide)⟩

/-- C6: the vehicle-type revenue mix partitions the filtered revenue —
the sum of the per-group revenue values equals the booking-value sum
over the whole filtered set, null values contributing nothing on either
side.  (This rests on the filter guaranteeing a non-null vehicle type
for every surviving record; a null-typed record would be dropped by the
groupby.) -/
theorem mix_revenue_matches_total (cfg : FilterConfig) (rs : List Record) :
    mix_total (filtered_df cfg rs) = total_rev (filtered_df cfg rs) := by
  set l := filtered_df cfg rs with hl
  have hkey : ∀ r ∈ l, (r.vehicleType).isSome := by
    intro r hr
    rw [hl, filtered_df, List.mem_filter] at hr
    rcases (mask_iff cfg r).mp hr.2 with ⟨_, ⟨v, hv, _⟩, _⟩
    rw [hv]
    rfl
  have hnodup : (vehicle_keys l).Nodup := (sorted_nodup_groupKeys lawful_strLe _).2
  have hcov : ∀ r ∈ l, ∀ k, r.vehicleType = some k → k ∈ vehicle_keys l := by
    intro r hr k hk
    rw [vehicle_keys, mem_groupKeys]
    exact List.mem_filterMap.mpr ⟨r, hr, hk⟩
  rw [mix_total, veh_metrics, List.map_map]
  have hcomp : (((fun p : String × ℚ × Nat => p.2.1) ∘ fun v =>
      (v, ((vehicleGroup l v).filterMap (·.bookingValue)).sum,
        ((vehicleGroup l v).filterMap (·.bookingId)).length)))
      = fun v => ((vehicleGroup l v).filterMap (·.bookingValue)).sum := rfl
  rw [hcomp]
  have hrw : ∀ v ∈ vehicle_keys l,
      ((vehicleGroup l v).filterMap (·.bookingValue)).sum
        = ((l.filter fun a => a.vehicleType = some v).map
            fun a => (a.bookingValue).getD 0).sum := by
    intro v _
    rw [vehicleGroup, sum_filterMap_getD]
  rw [List.map_congr_left hrw,
    sum_partition (fun r : Record => r.vehicleType)
      (fun a => (a.bookingValue).getD 0) l (vehicle_keys l) hnodup hcov hkey,
    total_rev, sum_filterMap_getD]

/-- C4: the daily revenue series has one row per distinct non-null date,
ascending and duplicate-free, its length is the number of distinct
dates; the rolling column has the same length, each entry is the mean of
the window of the current and up to 6 preceding revenue sums (of size
`min (i+1) 7`), and the first rolling entry equals the first raw revenue
sum. -/
theorem daily_series_rolling (rs : List Record) :
    ((daily_data rs).map fun p => p.1).Pairwise (· ≤ ·)
    ∧ ((daily_data rs).map fun p => p.1).Nodup
    ∧ (∀ d : Int, (∃ p ∈ daily_data rs, p.1 = d) ↔ ∃ r ∈ rs, r.date = some d)
    ∧ (daily_data rs).length = (rs.filterMap (·.date)).dedup.length
    ∧ (revenue_7d rs).length = (daily_data rs).length
    ∧ (∀ i, i < (revenue_7d rs).length →
        ((((daily_data rs).map fun p => p.2.1).take (i+1)).drop (i+1-7)).length
          = min (i+1) 7
        ∧ (revenue_7d rs).getD i 0
          = listMean ((((daily_data rs).map fun p => p.2.1).take (i+1)).drop (i+1-7)))
    ∧ (revenue_7d rs).getD 0 0 = ((daily_data rs).map fun p => p.2.1).getD 0 0 := by
  have hfst : ((daily_data rs).map fun p => p.1) = date_keys rs := by
    rw [daily_data, List.map_map]
    have hid : (((fun p : Int × ℚ × Nat => p.1) ∘ fun d =>
        (d, ((dateGroup rs d).filterMap (·.bookingValue)).sum,
          ((dateGroup rs d).filterMap (·.bookingId)).length)))
        = fun d => d := rfl
    rw [hid, List.map_id']
  have hsorted := sorted_nodup_groupKeys lawful_intLe (rs.filterMap (·.date))
  have hlen7 : (revenue_7d rs).length = (daily_data rs).length := by
    rw [revenue_7d, rollingMean]
    simp
  have hwin : ∀ i, i < (revenue_7d rs).length →
      ((((daily_data rs).map fun p => p.2.1).take (i+1)).drop (i+1-7)).length
        = min (i+1) 7
      ∧ (revenue_7d rs).getD i 0
        = listMean ((((daily_data rs).map fun p => p.2.1).take (i+1)).drop (i+1-7)) := by
    intro i hi
    have hixs : i < ((daily_data rs).map fun p => p.2.1).length := by
      rw [hlen7] at hi
      simpa using hi
    constructor
    · rw [List.length_drop, List.length_take]
      omega
    · rw [revenue_7d, rollingMean] at hi ⊢
      rw [List.getD_eq_getElem _ _ hi, List.getElem_map, List.getElem_range]
  refine ⟨?_, ?_, ?_, ?_, hlen7, hwin, ?_⟩
  · rw [hfst]
    exact (hsorted.1).imp fun hxy => of_decide_eq_true hxy
  · rw [hfst]
    exact hsorted.2
  · intro d
    constructor
    · rintro ⟨p, hp, hpd⟩
      have hd : d ∈ (daily_data rs).map fun p => p.1 :=
        List.mem_map.mpr ⟨p, hp, hpd⟩
      rw [hfst, date_keys, mem_groupKeys] at hd
      exact List.mem_filterMap.mp hd
    · rintro ⟨r, hr, hrd⟩
      have hd : d ∈ date_keys rs := by
        rw [date_keys, mem_groupKeys]
        exact List.mem_filterMap.mpr ⟨r, hr, hrd⟩
      rw [← hfst] at hd
      obtain ⟨p, hp, hpd⟩ := List.mem_map.mp hd
      exact ⟨p, hp, hpd⟩
  · have hperm : (date_keys rs).Perm (rs.filterMap (·.date)).dedup := by
      refine (List.perm_ext_iff_of_nodup hsorted.2 (List.nodup_dedup _)).mpr ?_
      intro a
      rw [date_keys] at *
      rw [mem_groupKeys, List.mem_dedup]
    calc (daily_data rs).length
        = (date_keys rs).length := by rw [daily_data, List.length_map]
      _ = (rs.filterMap (·.date)).dedup.length := hperm.length_eq
  · cases hd : daily_data rs with
    | nil => simp [revenue_7d, rollingMean, hd]
    | cons p t =>
      have h0 : 0 < (revenue_7d rs).length := by
        rw [hlen7, hd]
        simp
      obtain ⟨_, hval⟩ := hwin 0 h0
      rw [hval, hd]
      simp [listMean]

/-- C8: a record with a null datetime is dropped by every view grouped
on an hour or day key — the hourly profile, the heatmap pivot, and (when
its date is also null) the daily revenue series — while it still counts
in every non-temporal aggregation: the record count, the revenue total,
the cancellation-reason frequencies, the cancellation-rate view per
vehicle type (both its `Cancelled` and its `Total` non-null-id
component), the completed-rides count, and the vehicle-type mix — the
record keeps its key among the mix rows and contributes to its group
revenue (`Revenue`) and non-null-id ride count (`Rides`, the same count
as the rate view `Total`). -/
theorem null_datetime_participation (r : Record) (rs : List Record)
    (h : r.dateTime = none) :
    hourly_profile (r :: rs) = hourly_profile rs
    ∧ heatmap_pivot (r :: rs) = heatmap_pivot rs
    ∧ (r.date = none → daily_data (r :: rs) = daily_data rs)
    ∧ total_rides (r :: rs) = total_rides rs + 1
    ∧ total_rev (r :: rs) = (r.bookingValue).getD 0 + total_rev rs
    ∧ (∀ s, (all_reasons (r :: rs)).count s
        = (all_reasons rs).count s
          + (if is_cancel r ∧ r.reasonCustomer = some s then 1 else 0)
          + (if is_cancel r ∧ r.reasonDriver = some s then 1 else 0))
    ∧ (∀ v, ((vehicleGroup (r :: rs) v).filter is_cancel).length
        = ((vehicleGroup rs v).filter is_cancel).length
          + (if r.vehicleType = some v ∧ is_cancel r then 1 else 0))
    ∧ (completed_rides (r :: rs)).length
        = (completed_rides rs).length
          + (if r.bookingStatus = some "Completed" then 1 else 0)
    ∧ (∀ v, v ∈ vehicle_keys (r :: rs)
        ↔ r.vehicleType = some v ∨ v ∈ vehicle_keys rs)
    ∧ (∀ v, ((vehicleGroup (r :: rs) v).filterMap (·.bookingValue)).sum
        = (if r.vehicleType = some v then (r.bookingValue).getD 0 else 0)
          + ((vehicleGroup rs v).filterMap (·.bookingValue)).sum)
    ∧ (∀ v, ((vehicleGroup (r :: rs) v).filterMap (·.bookingId)).length
        = ((vehicleGroup rs v).filterMap (·.bookingId)).length
          + (if r.vehicleType = some v ∧ r.bookingId ≠ none then 1 else 0)) := by
  have hh : hourOf r = none := by rw [hourOf, h]; rfl
  refine ⟨?_, ?_, ?_, ?_, ?_, ?_, ?_, ?_, ?_, ?_, ?_⟩
  · have hkeys : hour_keys (r :: rs) = hour_keys rs := by
      rw [hour_keys, hour_keys, List.filterMap_cons_none hh]
    rw [hourly_profile, hourly_profile, hkeys]
    refine List.map_congr_left fun h2 _ => ?_
    rw [List.filter_cons_of_neg (by simp [hh])]
  · have hdat : heatmap_data (r :: rs) = heatmap_data rs := by
      rw [heatmap_data, heatmap_data,
        List.filterMap_cons_none (by rw [h])]
    have hcols : heatmap_cols (r :: rs) = heatmap_cols rs := by
      rw [heatmap_cols, heatmap_cols, hdat]
    have hcell : ∀ d, heatmap_cell (r :: rs) d = heatmap_cell rs d := by
      intro d
      funext h2
      rw [heatmap_cell, heatmap_cell, hdat]
    simp only [heatmap_pivot, hcols, hcell]
  · intro hd
    have hdk : date_keys (r :: rs) = date_keys rs := by
      rw [date_keys, date_keys, List.filterMap_cons_none (by rw [hd])]
    have hg : ∀ d, dateGroup (r :: rs) d = dateGroup rs d := by
      intro d
      rw [dateGroup, dateGroup, List.filter_cons_of_neg (by simp [hd])]
    simp only [daily_data, hdk, hg]
  · simp [total_rides]
  · cases hb : r.bookingValue <;>
      simp [total_rev, List.filterMap_cons, hb]
  · intro s
    rw [all_reasons_count, all_reasons_count]
    have hcdf : cancel_df (r :: rs)
        = if is_cancel r then r :: cancel_df rs else cancel_df rs := by
      rw [cancel_df, cancel_df, List.filter_cons]
    by_cases hc : is_cancel r
    · rw [hcdf, if_pos hc]
      by_cases h1 : r.reasonCustomer = some s <;>
        by_cases h2 : r.reasonDriver = some s <;>
          (simp [List.filter_cons, h1, h2, hc]; try omega)
    · rw [hcdf, if_neg hc]
      simp [hc]
  · intro v
    by_cases hv : r.vehicleType = some v <;> by_cases hc : is_cancel r <;>
      simp [vehicleGroup, List.filter_cons, hv, hc]
  · by_cases hs : r.bookingStatus = some "Completed" <;>
      simp [completed_rides, List.filter_cons, hs]
  · intro v
    rw [vehicle_keys, vehicle_keys, mem_groupKeys, mem_groupKeys]
    cases hv : r.vehicleType with
    | none =>
      rw [List.filterMap_cons_none hv]
      simp
    | some w =>
      rw [List.filterMap_cons_some hv]
      constructor
      · intro h2
        rcases List.mem_cons.mp h2 with h3 | h3
        · exact Or.inl (by rw [h3])
        · exact Or.inr h3
      · rintro (h3 | h3)
        · exact List.mem_cons.mpr (Or.inl (Option.some.inj h3).symm)
        · exact List.mem_cons.mpr (Or.inr h3)
  · intro v
    by_cases hv : r.vehicleType = some v
    · cases hb : r.bookingValue <;>
        simp [vehicleGroup, List.filter_cons, hv, List.filterMap_cons, hb]
    · simp [vehicleGroup, List.filter_cons, hv]
  · intro v
    by_cases hv : r.vehicleType = some v
    · cases hb : r.bookingId <;>
        simp [vehicleGroup, List.filter_cons, hv, List.filterMap_cons, hb]
    · simp [vehicleGroup, List.filter_cons, hv]

/-- Witness for C8 at a concrete all-null record. -/
theorem null_datetime_participation_witness :
    hourly_profile [rNull] = hourly_profile []
    ∧ total_rides [rNull] = total_rides [] + 1
    ∧ daily_data [rNull] = daily_data [] :=
  ⟨(null_datetime_participation rNull [] rfl).1,
   (null_datetime_participation rNull [] rfl).2.2.2.1,
   (null_datetime_participation rNull [] rfl).2.2.1 rfl⟩

/-- Witness for C4 at a concrete one-record set. -/
theorem daily_series_rolling_witness :
    (revenue_7d [rHeat]).length = (daily_data [rHeat]).length
    ∧ ((((daily_data [rHeat]).map fun p => p.2.1).take (0+1)).drop (0+1-7)).length
        = min (0+1) 7 :=
  ⟨(daily_series_rolling [rHeat]).2.2.2.2.1,
   ((daily_series_rolling [rHeat]).2.2.2.2.2.1 0 (by decide)).1⟩

end UberDash
